import Mathlib

/-!
Verification of the te.js HTTP framework (request dispatch, route registry,
rate limiter, LRU cache store) against its natural-language specification.

JavaScript strings are modelled as lists of characters (`JsStr`) where the
code manipulates them character by character, and as Lean `String`s where
only their UTF-8 byte length matters.  JavaScript numbers are modelled as
`Nat` / `Int` where the code only ever holds integers, and as `ℚ` where the
code computes fractional values (rate-limiter weights and refill rates);
`Math.floor` / `Math.ceil` become explicit `⌊·⌋` / `⌈·⌉`.
-/

/-- JavaScript strings, modelled as lists of characters. -/
abbrev JsStr := List Char

/-- A Lean string literal viewed as a `JsStr`. -/
def jstr (s : String) : JsStr := s.data

/-! ## Path validator (src/server/targets/path-validator.js) -/

/-- JS `p.startsWith('/')`. -/
def startsWithSlash : JsStr → Bool
  | [] => false
  | c :: _ => c == '/'

/-- JS `p.endsWith('/')`. -/
def endsWithSlash (p : JsStr) : Bool :=
  match p.getLast? with
  | some c => c == '/'
  | none => false

/-- `standardizePath` from src/server/targets/path-validator.js: a falsy or
empty path becomes the empty string; otherwise a leading slash is prepended
when missing (`p.startsWith('/') ? p : '/' + p`) and one trailing slash is
stripped (`s.endsWith('/') ? s.slice(0, -1) : s`). -/
def standardizePath (p : JsStr) : JsStr :=
  if p.isEmpty then []
  else
    let s := if startsWithSlash p then p else '/' :: p
    if endsWithSlash s then s.dropLast else s

lemma endsWithSlash_concat (ys : JsStr) (y : Char) :
    endsWithSlash (ys ++ [y]) = (y == '/') := by
  simp [endsWithSlash, List.getLast?_concat]

lemma endsWithSlash_eq_true {p : JsStr} (h : endsWithSlash p = true) :
    p.getLast? = some '/' := by
  unfold endsWithSlash at h
  cases hl : p.getLast? with
  | none => rw [hl] at h; simp at h
  | some c => rw [hl] at h; simp at h; rw [h]

lemma startsWithSlash_ne_nil {p : JsStr} (h : startsWithSlash p = true) : p ≠ [] := by
  cases p <;> simp_all [startsWithSlash]

/-- A path that already begins with `/` and does not end with `/` is a fixed
point of `standardizePath`. -/
lemma standardizePath_fixed {r : JsStr} (h1 : startsWithSlash r = true)
    (h2 : endsWithSlash r = false) : standardizePath r = r := by
  have hne : r ≠ [] := startsWithSlash_ne_nil h1
  unfold standardizePath
  rw [if_neg (by simpa using hne)]
  simp only [h1, if_true, h2]
  simp

lemma startsWithSlash_concat {ys : JsStr} (y : Char) (h : ys ≠ []) :
    startsWithSlash (ys ++ [y]) = startsWithSlash ys := by
  cases ys with
  | nil => simp at h
  | cons c cs => simp [startsWithSlash]

/-- Core idempotence lemma: on any input that does not end with two slashes,
`standardizePath` is idempotent. -/
lemma standardizePath_idem {p : JsStr} (h : ¬ (['/', '/'] <:+ p)) :
    standardizePath (standardizePath p) = standardizePath p := by
  by_cases hp : p.isEmpty
  · have : p = [] := by cases p <;> simp_all
    subst this
    simp [standardizePath]
  · have hpne : p ≠ [] := by cases p <;> simp_all
    set s := if startsWithSlash p then p else '/' :: p with hs
    have hsw : startsWithSlash s = true := by
      by_cases h1 : startsWithSlash p
      · rw [hs, if_pos h1]; exact h1
      · rw [hs, if_neg h1]; simp [startsWithSlash]
    have hsne : s ≠ [] := startsWithSlash_ne_nil hsw
    have hss : ¬ (['/', '/'] <:+ s) := by
      rw [hs]
      by_cases h1 : startsWithSlash p
      · simpa [h1] using h
      · simp only [h1, if_false]
        intro hsuf
        rcases List.suffix_cons_iff.mp hsuf with heq | hsuf'
        · -- ['/', '/'] = '/' :: p forces p = ['/'], which starts with '/'
          have : p = ['/'] := by
            injection heq with _ h2
            exact h2.symm
          rw [this] at h1
          simp [startsWithSlash] at h1
        · exact h hsuf'
    have hstd : standardizePath p = if endsWithSlash s then s.dropLast else s := by
      unfold standardizePath
      rw [if_neg (by simpa using hpne), ← hs]
    by_cases hes : endsWithSlash s
    · -- trailing slash stripped; show the remainder is again a fixed point
      have hlast : s.getLast? = some '/' := endsWithSlash_eq_true hes
      obtain ⟨ys, hys⟩ : ∃ ys, s = ys ++ ['/'] := by
        refine ⟨s.dropLast, ?_⟩
        have := List.dropLast_append_getLast hsne
        have hg : s.getLast hsne = '/' := by
          have := List.getLast?_eq_getLast s hsne
          rw [this] at hlast
          exact Option.some_injective _ hlast
        rw [← hg]
        exact this.symm
      rw [hstd, if_pos hes, hys, List.dropLast_concat]
      have hysnoslash : endsWithSlash ys = false := by
        by_contra hy
        have hy' : endsWithSlash ys = true := by simpa using hy
        have hylast : ys.getLast? = some '/' := endsWithSlash_eq_true hy'
        have hyne : ys ≠ [] := by
          intro hnil; rw [hnil] at hylast; simp at hylast
        obtain ⟨zs, hzs⟩ : ∃ zs, ys = zs ++ ['/'] := by
          refine ⟨ys.dropLast, ?_⟩
          have hdl := List.dropLast_append_getLast hyne
          have h2 := List.getLast?_eq_getLast ys hyne
          rw [h2] at hylast
          have hg : ys.getLast hyne = '/' := Option.some_injective _ hylast
          rw [← hg]
          exact hdl.symm
        apply hss
        rw [hys, hzs]
        refine ⟨zs, ?_⟩
        simp
      by_cases hynil : ys = []
      · rw [hynil]; simp [standardizePath]
      · have hysw : startsWithSlash ys = true := by
          have := @startsWithSlash_concat ys '/' hynil
          rw [hys] at hsw
          rw [this] at hsw
          exact hsw
        exact standardizePath_fixed hysw hysnoslash
    · rw [hstd, if_neg hes]
      exact standardizePath_fixed hsw (by simpa using hes)

/-! ## Route registry and matcher (src/server/targets/path-validator.js,
TargetRegistry.aim / matchParameterizedRoute).  A registered target is
represented by its normalized path pattern (`target.getPath()`). -/

/-- JS `p.split('/').filter(s => s.length > 0)`. -/
def splitSegments (p : JsStr) : List JsStr :=
  (p.splitOn '/').filter (fun s => !s.isEmpty)

/-- The per-segment loop of `matchParameterizedRoute`: a pattern segment
starting with `:` binds its remainder to the URL segment; any other segment
must match literally, else the whole match fails. -/
def matchSegments : List JsStr → List JsStr → Option (List (JsStr × JsStr))
  | [], [] => some []
  | pseg :: ps, useg :: us =>
    if pseg.head? = some ':' then
      (matchSegments ps us).map (fun acc => (pseg.drop 1, useg) :: acc)
    else if pseg = useg then matchSegments ps us
    else none
  | _, _ => none

/-- `TargetRegistry.matchParameterizedRoute(pattern, url)`: root matches only
root; otherwise both sides are split on `/` with empty segments discarded,
segment counts must agree, and segments are matched pairwise. -/
def matchParameterizedRoute (pattern url : JsStr) : Option (List (JsStr × JsStr)) :=
  if pattern = jstr "/" ∧ url = jstr "/" then some []
  else
    let ps := splitSegments pattern
    let us := splitSegments url
    if ps.length = us.length then matchSegments ps us else none

/-- The parameterized-matching loop of `TargetRegistry.aim`: first registered
target whose pattern matches wins. -/
def aimParams : List JsStr → JsStr → Option (JsStr × List (JsStr × JsStr))
  | [], _ => none
  | t :: rest, u =>
    match matchParameterizedRoute t u with
    | some ps => some (t, ps)
    | none => aimParams rest u

/-- `TargetRegistry.aim(endpoint)`: standardize the endpoint, return the first
exact-path registration if one exists, otherwise fall back to parameterized
matching in registration order. -/
def aim (targets : List JsStr) (endpoint : JsStr) :
    Option (JsStr × List (JsStr × JsStr)) :=
  let std := standardizePath endpoint
  match targets.find? (fun t => t == std) with
  | some t => some (t, [])
  | none => aimParams targets std

lemma aim_of_find?_eq_some {ts : List JsStr} {ep t : JsStr}
    (h : ts.find? (fun t => t == standardizePath ep) = some t) :
    aim ts ep = some (t, []) := by
  show (match ts.find? (fun t => t == standardizePath ep) with
    | some t => some (t, ([] : List (JsStr × JsStr)))
    | none => aimParams ts (standardizePath ep)) = some (t, [])
  rw [h]

lemma aim_exact_exists {ts : List JsStr} {ep : JsStr}
    (h : ∃ t ∈ ts, t = standardizePath ep) :
    ∃ t ∈ ts, t = standardizePath ep ∧ aim ts ep = some (t, []) := by
  have hsome : (ts.find? (fun t => t == standardizePath ep)).isSome := by
    rw [List.find?_isSome]
    obtain ⟨t, ht, hte⟩ := h
    exact ⟨t, ht, by simp [hte]⟩
  obtain ⟨t, hfind⟩ := Option.isSome_iff_exists.mp hsome
  refine ⟨t, List.mem_of_find?_eq_some hfind, ?_, aim_of_find?_eq_some hfind⟩
  have := List.find?_some hfind
  simpa using this

lemma aim_param_no_exact {ts : List JsStr} {ep t : JsStr}
    {ps : List (JsStr × JsStr)}
    (h : aim ts ep = some (t, ps)) (hne : t ≠ standardizePath ep) :
    ∀ t' ∈ ts, t' ≠ standardizePath ep := by
  intro t' ht'
  cases hfind : ts.find? (fun t => t == standardizePath ep) with
  | some t0 =>
    have haim := @aim_of_find?_eq_some ts ep t0 hfind
    have heq := haim.symm.trans h
    simp only [Option.some.injEq, Prod.mk.injEq] at heq
    have h3 := List.find?_some hfind
    simp at h3
    exact absurd (by rw [← heq.1]; exact h3) hne
  | none =>
    have := List.find?_eq_none.mp hfind t' ht'
    simpa using this

/-! ## Cache entity (src/cache/entity.js)

Cache keys and values are modelled as Lean `String`s; the entries considered
here are the string-valued ones (the store encrypts every value to a hex
string before insertion, so every stored value is a string). -/

/-- `CacheEntity.estimateSize` for a string key and string value: UTF-8 byte
length of the key, plus UTF-8 byte length of the value, plus 8 bytes for the
expiry, 8 for the creation timestamp and 50 for the entity structure. -/
def estimateSize (key value : String) : Nat :=
  key.utf8ByteSize + value.utf8ByteSize + 8 + 8 + 50

/-- The entry-size formula as the specification words it: UTF-8 key length
plus value length plus a fixed overhead of 24 bytes (8 expiry + 8 timestamp +
8 structure).  Kept separate from `estimateSize` (the source's formula) so the
two can be compared. -/
def specEntrySize (key value : String) : Nat :=
  key.utf8ByteSize + value.utf8ByteSize + 24

/-- A cache entry.  `expiry = none` models `Infinity` (no TTL); the linked
list pointers of the JS entity are represented by the entry's position in the
containing list. -/
structure CacheEntity where
  key : String
  value : String
  expiry : Option Nat
  timestamp : Nat
  size : Nat
  deriving Repr, DecidableEq

/-- The `CacheEntity` constructor: records key, value, expiry and creation
time and computes the entry size once. -/
def mkEntity (key value : String) (expiry : Option Nat) (now : Nat) : CacheEntity :=
  { key := key, value := value, expiry := expiry, timestamp := now
    size := estimateSize key value }

/-- `CacheEntity.isExpired`: `Date.now() > this.expiry`; comparison against
`Infinity` is always false. -/
def isExpired (e : CacheEntity) (now : Nat) : Bool :=
  match e.expiry with
  | none => false
  | some x => now > x

/-! ## LRU cache (src/cache/lru-cache.js)

The doubly linked list plus key map is modelled as a single list of entries,
most recently used first; the map's keys are the keys of the listed entries.
`_operationLock` is the boolean `lock`.  The busy-wait loop of
`#acquireLock` (`while (this._operationLock) await sleep(1)`) is modelled
with explicit fuel: a public operation that would spin forever returns `none`
for every fuel value, because nothing can release the lock while the very
operation that holds it is awaiting it. -/

structure LRU where
  maxSize : Nat
  currentSize : Nat
  entries : List CacheEntity
  lock : Bool
  deriving Repr, DecidableEq

/-- A fresh `LRUCache` (`new LRUCache(maxSize)` with the size already parsed
to bytes by `getMaxCacheSizeInBytes`). -/
def newLRU (bytes : Nat) : LRU :=
  { maxSize := bytes, currentSize := 0, entries := [], lock := false }

/-- `#acquireLock`: spin while the lock is held, then take it.  One unit of
fuel is one iteration of the wait loop; within a single operation no other
task runs, so the lock state never changes while spinning. -/
def acquireLock : Nat → LRU → Option LRU
  | 0, _ => none
  | fuel + 1, c => if c.lock then acquireLock fuel c else some { c with lock := true }

/-- `#removeEntity` (plus the map delete): drop the first entry with the given
key and subtract its size, clamped at zero (`Math.max(0, currentSize -
entity.size)`, which is exactly `Nat` subtraction). -/
def removeByKey (c : LRU) (k : String) : LRU :=
  match c.entries.find? (fun e => e.key == k) with
  | none => c
  | some e =>
    { c with entries := c.entries.eraseP (fun x => x.key == k)
             currentSize := c.currentSize - e.size }

/-- `#addEntity`: link the entry at the head and add its size. -/
def addEntity (c : LRU) (e : CacheEntity) : LRU :=
  { c with entries := e :: c.entries, currentSize := c.currentSize + e.size }

/-- `#moveToHead` = `#removeEntity` followed by `#addEntity`. -/
def moveToHead (c : LRU) (e : CacheEntity) : LRU :=
  addEntity (removeByKey c e.key) e

/-- `#evict`: remove the tail (least recently used) entry; keys are unique in
any reachable cache, so removing by the tail's key removes the tail. -/
def evict (c : LRU) : LRU :=
  match c.entries.getLast? with
  | none => c
  | some tailEnt => removeByKey c tailEnt.key

/-- The `while` loop of `#enforceSizeLimit`, fuelled by its own
`MAX_ITERATIONS` bound, with the non-decreasing-size break. -/
def enforceLoop : Nat → LRU → LRU
  | 0, c => c
  | n + 1, c =>
    if c.currentSize > c.maxSize ∧ c.entries ≠ [] then
      let prev := c.currentSize
      let c' := evict c
      if c'.currentSize ≥ prev then c' else enforceLoop n c'
    else c

/-- `#enforceSizeLimit` with `MAX_ITERATIONS = 1000`. -/
def enforceSizeLimit (c : LRU) : LRU := enforceLoop 1000 c

/-- `LRUCache.delete(key)`: acquire the lock, remove the key if present,
release.  `none` means the operation never completes (the lock was held and
can never be released). -/
def lruDelete (fuel : Nat) (c : LRU) (k : String) : Option LRU :=
  match acquireLock fuel c with
  | none => none
  | some c1 => some { removeByKey c1 k with lock := false }

/-- `LRUCache.set(key, value, expiry)`: under the lock, `await this.delete(key)`
when the key exists (that inner `delete` spins on the very lock `set` holds),
then create the entity, add it at the head and enforce the size limit. -/
def lruSet (fuel : Nat) (c : LRU) (k v : String) (expiry : Option Nat)
    (now : Nat) : Option LRU :=
  match acquireLock fuel c with
  | none => none
  | some c1 =>
    match (if c1.entries.any (fun e => e.key == k) then lruDelete fuel c1 k
           else some c1) with
    | none => none
    | some c2 =>
      let e := mkEntity k v expiry now
      let c3 := addEntity c2 e
      let c4 := enforceSizeLimit c3
      some { c4 with lock := false }

/-- `LRUCache.get(key)`: under the lock, a missing key yields `null`; an
expired entry triggers `await this.delete(key)` (again on the held lock);
otherwise the entry moves to the head and its value is returned. -/
def lruGet (fuel : Nat) (c : LRU) (k : String) (now : Nat) :
    Option (Option String × LRU) :=
  match acquireLock fuel c with
  | none => none
  | some c1 =>
    match c1.entries.find? (fun e => e.key == k) with
    | none => some (none, { c1 with lock := false })
    | some e =>
      if isExpired e now then
        match lruDelete fuel c1 k with
        | none => none
        | some c2 => some (none, { c2 with lock := false })
      else
        let c2 := moveToHead c1 e
        some (some e.value, { c2 with lock := false })

lemma acquireLock_locked (fuel : Nat) (c : LRU) (h : c.lock = true) :
    acquireLock fuel c = none := by
  induction fuel with
  | zero => rfl
  | succ n ih => simp [acquireLock, h, ih]

lemma lruDelete_locked (fuel : Nat) (c : LRU) (k : String) (h : c.lock = true) :
    lruDelete fuel c k = none := by
  simp [lruDelete, acquireLock_locked fuel c h]

/-- `set` on an existing key deadlocks: the inner `delete` spins forever on
the lock `set` already holds, for every amount of fuel. -/
lemma lruSet_deadlock (fuel : Nat) (c : LRU) (k v : String) (expiry : Option Nat)
    (now : Nat) (hl : c.lock = false)
    (hk : c.entries.any (fun e => e.key == k) = true) :
    lruSet fuel c k v expiry now = none := by
  cases fuel with
  | zero => rfl
  | succ n =>
    have hacq : acquireLock (n + 1) c = some { c with lock := true } := by
      simp [acquireLock, hl]
    simp only [lruSet, hacq]
    have : ({ c with lock := true } : LRU).entries = c.entries := rfl
    rw [if_pos (by rw [this]; exact hk)]
    rw [lruDelete_locked (n + 1) _ k rfl]

/-- `get` of an expired entry deadlocks the same way. -/
lemma lruGet_deadlock (fuel : Nat) (c : LRU) (k : String) (now : Nat)
    (e : CacheEntity) (hl : c.lock = false)
    (hk : c.entries.find? (fun e => e.key == k) = some e)
    (hexp : isExpired e now = true) :
    lruGet fuel c k now = none := by
  cases fuel with
  | zero => rfl
  | succ n =>
    have hacq : acquireLock (n + 1) c = some { c with lock := true } := by
      simp [acquireLock, hl]
    have hfind : ({ c with lock := true } : LRU).entries.find?
        (fun e => e.key == k) = some e := hk
    simp only [lruGet, hacq, hfind, hexp, if_true]
    rw [lruDelete_locked (n + 1) _ k rfl]

/-! ## Cache store (src/cache/store.js)

`CacheStore` is configured with a size value that its documentation says is a
string such as "100MB" or "25%".  The store keeps that raw value in
`this.maxSize` and compares `this.globalSize + entrySize > this.maxSize`
directly against it, while each per-namespace `LRUCache` parses it to bytes
via `getMaxCacheSizeInBytes`.  In JavaScript, `number > string` converts the
string with `Number(...)`; for the documented size formats ("100B", "100MB",
"25%") that conversion yields `NaN`, and every comparison against `NaN` is
false.  `SizeCfg.numericValue` records `Number(raw)` (`none` for `NaN`). -/

structure SizeCfg where
  raw : String
  bytes : Nat
  numericValue : Option ℚ
  deriving Repr, DecidableEq

/-- JS `a > maxSize` where `a` is a number and `maxSize` the configured size
value: false whenever `Number(maxSize)` is `NaN`. -/
def jsGtSize (a : Int) (cfg : SizeCfg) : Bool :=
  match cfg.numericValue with
  | some q => (a : ℚ) > q
  | none => false

structure CacheStoreSt where
  maxSize : SizeCfg
  globalSize : Int
  caches : List (String × LRU)
  deriving Repr, DecidableEq

def lookupCache (cs : List (String × LRU)) (ns : String) : Option LRU :=
  (cs.find? (fun p => p.1 == ns)).map (fun p => p.2)

/-- JS `Map.set` on the namespace map: replace in place, or append a new
binding (insertion order is preserved by JS maps). -/
def updateCache (cs : List (String × LRU)) (ns : String) (c : LRU) :
    List (String × LRU) :=
  if cs.any (fun p => p.1 == ns) then
    cs.map (fun p => if p.1 == ns then (ns, c) else p)
  else cs ++ [(ns, c)]

/-- `#getOrCreateCache`: a missing namespace gets a fresh `LRUCache` built
from the raw configured size (parsed to bytes by its constructor). -/
def getOrCreateCache (st : CacheStoreSt) (ns : String) : CacheStoreSt × LRU :=
  match lookupCache st.caches ns with
  | some c => (st, c)
  | none =>
    let c := newLRU st.maxSize.bytes
    ({ st with caches := st.caches ++ [(ns, c)] }, c)

/-- The `while` loop of `#enforceGlobalSizeLimit`: while the (string-coerced)
size check still fails, find the first namespace with a tail, read that tail
through `LRUCache.get` (which can itself deadlock on an expired tail),
subtract its estimated size from `globalSize` and delete it.  Fuel models the
unbounded loop; `none` is non-termination. -/
def enforceGlobalLoop : Nat → CacheStoreSt → Nat → Nat → Nat → Option CacheStoreSt
  | 0, _, _, _, _ => none
  | n + 1, st, required, fuel, now =>
    if jsGtSize (st.globalSize + required) st.maxSize then
      match st.caches.find? (fun p => !p.2.entries.isEmpty) with
      | none => some st
      | some (ns, c) =>
        match c.entries.getLast? with
        | none => some st
        | some tailEnt =>
          match lruGet fuel c tailEnt.key now with
          | none => none
          | some (entry?, c1) =>
            let st1 :=
              match entry? with
              | some value =>
                { st with globalSize :=
                    st.globalSize - estimateSize tailEnt.key value }
              | none => st
            match lruDelete fuel c1 tailEnt.key with
            | none => none
            | some c2 =>
              enforceGlobalLoop n
                { st1 with caches := updateCache st1.caches ns c2 }
                required fuel now
    else some st

/-- `CacheStore.set(prefix, key, value, ttl)`.  The store-level operation lock
is free at the entry of every public operation in the single-client runs
considered here, so it is not tracked.  The `value` argument stands for the
already-encrypted value string (`encrypt(value)`), whose computation is
environment-provided and irrelevant to size accounting.  `ttl = none` models
the default `Infinity`. -/
def storeSet (fuel : Nat) (st : CacheStoreSt) (ns k v : String)
    (ttl : Option Nat) (now : Nat) : Option CacheStoreSt :=
  let (st1, cache) := getOrCreateCache st ns
  let expiry : Option Nat := ttl.map (fun t => now + t)
  let entrySize := estimateSize k v
  match (if jsGtSize (st1.globalSize + entrySize) st1.maxSize then
          enforceGlobalLoop fuel st1 entrySize fuel now
         else some st1) with
  | none => none
  | some st2 =>
    match lruSet fuel ((lookupCache st2.caches ns).getD cache) k v expiry now with
    | none => none
    | some c2 =>
      some { st2 with caches := updateCache st2.caches ns c2
                      globalSize := st2.globalSize + entrySize }

/-- `CacheStore.delete(prefix, key)`: read the entry through `LRUCache.get`
(note: this refreshes its LRU position and can deadlock on an expired entry),
subtract its estimated size when present, then delete it. -/
def storeDelete (fuel : Nat) (st : CacheStoreSt) (ns k : String) (now : Nat) :
    Option CacheStoreSt :=
  let (st1, cache) := getOrCreateCache st ns
  match lruGet fuel cache k now with
  | none => none
  | some (entry?, c1) =>
    let st2 :=
      match entry? with
      | some value =>
        { st1 with globalSize := st1.globalSize - estimateSize k value }
      | none => st1
    match lruDelete fuel c1 k with
    | none => none
    | some c2 => some { st2 with caches := updateCache st2.caches ns c2 }

/-- Total byte size of the entries actually stored, across all namespaces. -/
def sumEntrySizes (st : CacheStoreSt) : Nat :=
  (st.caches.map (fun p => (p.2.entries.map (fun e => e.size)).sum)).sum

/-- The two-set scenario of the C2 analysis: a store configured with the
documented size string "100B" (100 bytes), two 80-byte entries inserted into
the same namespace. -/
def c2store0 : CacheStoreSt :=
  { maxSize := { raw := "100B", bytes := 100, numericValue := none }
    globalSize := 0, caches := [] }

def c2run : Option CacheStoreSt :=
  (storeSet 10 c2store0 "A" "k1" "aaaaaaaaaaaa" none 1000).bind
    (fun st1 => storeSet 10 st1 "A" "k2" "bbbbbbbbbbbb" none 2000)

/-! ## Rate limiter (src/rate-limit/base.js; token-bucket, sliding-window and
fixed-window consume).  Times are epoch milliseconds (`Nat`); weights and
refill rates are `ℚ` because the source allows fractional values. -/

structure RlOptions where
  maxRequests : Nat
  timeWindowSeconds : Nat
  deriving Repr, DecidableEq

structure TBOptions where
  refillRate : ℚ
  burstSize : Nat
  deriving Repr, DecidableEq

structure SWWeights where
  current : ℚ
  previous : ℚ
  deriving Repr, DecidableEq

structure SWOptions where
  granularity : Nat
  weights : SWWeights
  deriving Repr, DecidableEq

structure FWOptions where
  strictWindow : Bool
  deriving Repr, DecidableEq

inductive AlgOptionsV where
  | tb (o : TBOptions)
  | sw (o : SWOptions)
  | fw (o : FWOptions)
  deriving Repr, DecidableEq

/-- A configured limiter: the common options plus at most one per-algorithm
options object (the constructor enforces exclusivity). -/
structure Limiter where
  options : RlOptions
  tokenBucketOptions : Option TBOptions
  slidingWindowOptions : Option SWOptions
  fixedWindowOptions : Option FWOptions
  deriving Repr, DecidableEq

/-- `RateLimiter.getAlgorithmOptions(type)`: a switch on the literal strings
'token-bucket', 'sliding-window' and 'fixed-window'; every other argument
falls to the default branch and yields null. -/
def getAlgorithmOptions (l : Limiter) (type : String) : Option AlgOptionsV :=
  if type = "token-bucket" then l.tokenBucketOptions.map AlgOptionsV.tb
  else if type = "sliding-window" then l.slidingWindowOptions.map AlgOptionsV.sw
  else if type = "fixed-window" then l.fixedWindowOptions.map AlgOptionsV.fw
  else none

/-- The `(success, remainingRequests, resetTime)` triple every consume
returns; `resetTime` is epoch seconds. -/
structure RlDecision where
  success : Bool
  remainingRequests : Int
  resetTime : Int
  deriving Repr, DecidableEq

structure TBRecord where
  tokens : Int
  lastRefill : Nat
  deriving Repr, DecidableEq

/-- The token-bucket algorithm body as written under the options lookup
(reached only if the lookup produced the options; see `tbConsume`).  The
second component is the record passed to `storage.set`, `none` when the
branch returns without storing. -/
def tbConsumeWith (opts : RlOptions) (o : TBOptions) (stored : Option TBRecord)
    (now : Nat) : RlDecision × Option TBRecord :=
  match stored with
  | none =>
    ({ success := true, remainingRequests := (o.burstSize : Int) - 1,
       resetTime := ((now / 1000 + opts.timeWindowSeconds : Nat) : Int) },
     some { tokens := (o.burstSize : Int) - 1, lastRefill := now })
  | some r =>
    let timePassed : Int := (now : Int) - r.lastRefill
    let refillTokens : Int := ⌊((timePassed : ℚ) * o.refillRate) / 1000⌋
    let tokens1 : Int := min (o.burstSize : Int) (r.tokens + refillTokens)
    if tokens1 < 1 then
      let timeToNext : Int := ⌈((1 - (tokens1 : ℚ)) / o.refillRate) * 1000⌉
      ({ success := false, remainingRequests := 0,
         resetTime := ⌊(((now : Int) + timeToNext : Int) : ℚ) / 1000⌋ }, none)
    else
      ({ success := true, remainingRequests := tokens1 - 1,
         resetTime := ((now / 1000 + opts.timeWindowSeconds : Nat) : Int) },
       some { tokens := tokens1 - 1, lastRefill := now })

/-- The token-bucket consume outcome: the source reads
`this.getAlgorithmOptions('tokenBucketConfig')`, a string the switch does not
recognise, so `options` is null and the first property access
(`options.burstSize` or `options.refillRate`) raises a TypeError. -/
inductive TbOutcome where
  | thrown
  | decision (d : RlDecision) (newRecord : Option TBRecord)
  deriving Repr, DecidableEq

/-- `TokenBucketRateLimiter.consume` (src/rate-limit token bucket). -/
def tbConsume (l : Limiter) (stored : Option TBRecord) (now : Nat) : TbOutcome :=
  match getAlgorithmOptions l "tokenBucketConfig" with
  | some (AlgOptionsV.tb o) => TbOutcome.decision
      (tbConsumeWith l.options o stored now).1
      (tbConsumeWith l.options o stored now).2
  | _ => TbOutcome.thrown

lemma getAlgorithmOptions_tokenBucketConfig (l : Limiter) :
    getAlgorithmOptions l "tokenBucketConfig" = none := by
  simp [getAlgorithmOptions]

lemma tbConsume_thrown (l : Limiter) (stored : Option TBRecord) (now : Nat) :
    tbConsume l stored now = TbOutcome.thrown := by
  simp [tbConsume, getAlgorithmOptions_tokenBucketConfig]

structure SWRecord where
  counter : Nat
  timestamps : List Nat
  windowStart : Nat
  deriving Repr, DecidableEq

/-- `SlidingWindowRateLimiter.consume` (called with the recognised string
'sliding-window', so its options are found).  Granularity is in seconds; the
current window starts at `floor(now / (granularity*1000)) * (granularity*1000)`
(divisible by 1000, so `Math.floor(cws/1000 + W)` is `cws/1000 + W`). -/
def swConsume (opts : RlOptions) (o : SWOptions) (stored : Option SWRecord)
    (now : Nat) : RlDecision × Option SWRecord :=
  let g1000 := o.granularity * 1000
  match stored with
  | none =>
    ({ success := true, remainingRequests := (opts.maxRequests : Int) - 1,
       resetTime := ((now / 1000 + opts.timeWindowSeconds : Nat) : Int) },
     some { counter := 1, timestamps := [now],
            windowStart := now / g1000 * g1000 })
  | some r =>
    let cws := now / g1000 * g1000
    let pws : Int := (cws : Int) - (opts.timeWindowSeconds * 1000 : Nat)
    let c := (r.timestamps.filter (fun ts => cws ≤ ts)).length
    let p := (r.timestamps.filter
        (fun ts : Nat => decide (pws ≤ (ts : Int)) && decide ((ts : Int) < (cws : Int)))).length
    let weighted : ℚ := (c : ℚ) * o.weights.current + (p : ℚ) * o.weights.previous
    if (opts.maxRequests : ℚ) ≤ weighted then
      ({ success := false, remainingRequests := 0,
         resetTime := ((cws / 1000 + opts.timeWindowSeconds : Nat) : Int) }, none)
    else
      ({ success := true,
         remainingRequests := ⌊(opts.maxRequests : ℚ) - weighted - 1⌋,
         resetTime := ((cws / 1000 + opts.timeWindowSeconds : Nat) : Int) },
       some { counter := r.counter,
              timestamps := r.timestamps.filter (fun ts : Nat => decide (pws ≤ (ts : Int))) ++ [now],
              windowStart := cws })

structure FWRecord where
  counter : Nat
  startTime : Nat
  deriving Repr, DecidableEq

/-- `FixedWindowRateLimiter.consume` (called with the recognised string
'fixed-window').  In strict mode the window start is aligned to the clock;
otherwise it is `now`.  Only the strict branch ever resets an existing
record. -/
def fwConsume (opts : RlOptions) (o : FWOptions) (stored : Option FWRecord)
    (now : Nat) : RlDecision × Option FWRecord :=
  let wMs := opts.timeWindowSeconds * 1000
  let windowStart := if o.strictWindow then now / wMs * wMs else now
  match stored with
  | none =>
    ({ success := true, remainingRequests := (opts.maxRequests : Int) - 1,
       resetTime := ((windowStart / 1000 + opts.timeWindowSeconds : Nat) : Int) },
     some { counter := 1, startTime := windowStart })
  | some r =>
    if o.strictWindow ∧ r.startTime < windowStart then
      ({ success := true, remainingRequests := (opts.maxRequests : Int) - 1,
         resetTime := ((windowStart / 1000 + opts.timeWindowSeconds : Nat) : Int) },
       some { counter := 1, startTime := windowStart })
    else if opts.maxRequests ≤ r.counter then
      ({ success := false, remainingRequests := 0,
         resetTime := ((r.startTime / 1000 + opts.timeWindowSeconds : Nat) : Int) },
       none)
    else
      ({ success := true,
         remainingRequests := (opts.maxRequests : Int) - (r.counter + 1),
         resetTime := ((r.startTime / 1000 + opts.timeWindowSeconds : Nat) : Int) },
       some { counter := r.counter + 1, startTime := r.startTime })

/-- Arithmetic core of the reset-time bound: when the bucket width `g`
(seconds) is at most the window `W` (seconds), the second in which the
aligned window start lies, plus `W`, is not before the current second. -/
lemma floorWindow_resetSec (now g W : Nat) (hg : 1 ≤ g) (hgW : g ≤ W) :
    now / 1000 ≤ now / (g * 1000) * (g * 1000) / 1000 + W := by
  have hm : 0 < g * 1000 := by positivity
  set q := now / (g * 1000) with hq
  have hcws : q * (g * 1000) / 1000 = q * g := by
    rw [show q * (g * 1000) = q * g * 1000 by ring]
    exact Nat.mul_div_cancel _ (by norm_num)
  have hnow : now = now % (g * 1000) + 1000 * (q * g) := by
    calc now = g * 1000 * q + now % (g * 1000) := (Nat.div_add_mod now (g * 1000)).symm
    _ = now % (g * 1000) + 1000 * (q * g) := by ring
  have hdiv : now / 1000 = now % (g * 1000) / 1000 + q * g := by
    conv_lhs => rw [hnow]
    rw [Nat.add_mul_div_left _ _ (by norm_num : (0 : Nat) < 1000)]
  have hr : now % (g * 1000) / 1000 ≤ g - 1 := by
    have h1 : now % (g * 1000) ≤ g * 1000 - 1 := by
      have := Nat.mod_lt now hm
      omega
    have h3 : g * 1000 - 1 = 999 + 1000 * (g - 1) := by omega
    calc now % (g * 1000) / 1000 ≤ (g * 1000 - 1) / 1000 := Nat.div_le_div_right h1
    _ = g - 1 := by
        rw [h3, Nat.add_mul_div_left _ _ (by norm_num : (0 : Nat) < 1000)]
        norm_num
  rw [hcws, hdiv]
  set A := q * g
  set B := now % (g * 1000) / 1000
  omega

/-- Sliding-window bounds under the default weights `{current: 1, previous: 0}`
and a granularity no larger than the window: the remaining count is within
`[0, maxRequests - 1]` and the reset time is not in the past. -/
lemma swConsume_default_bounds (opts : RlOptions) (o : SWOptions)
    (stored : Option SWRecord) (now : Nat)
    (hmax : 1 ≤ opts.maxRequests) (hg : 1 ≤ o.granularity)
    (hgW : o.granularity ≤ opts.timeWindowSeconds)
    (hw : o.weights = { current := 1, previous := 0 }) :
    0 ≤ (swConsume opts o stored now).1.remainingRequests ∧
    (swConsume opts o stored now).1.remainingRequests ≤ (opts.maxRequests : Int) - 1 ∧
    ((now / 1000 : Nat) : Int) ≤ (swConsume opts o stored now).1.resetTime := by
  have hreset := floorWindow_resetSec now o.granularity opts.timeWindowSeconds hg hgW
  cases stored with
  | none =>
    refine ⟨?_, ?_, ?_⟩ <;> (simp [swConsume]; try omega)
  | some r =>
    simp only [swConsume, hw, mul_one, mul_zero, add_zero]
    set cws := now / (o.granularity * 1000) * (o.granularity * 1000) with hcws
    set c := (r.timestamps.filter (fun ts => cws ≤ ts)).length with hc
    split_ifs with hcase
    · refine ⟨?_, ?_, ?_⟩ <;> simp only [Prod.fst]
      · exact le_refl 0
      · show (0 : Int) ≤ (opts.maxRequests : Int) - 1
        omega
      · show ((now / 1000 : Nat) : Int) ≤ ((cws / 1000 + opts.timeWindowSeconds : Nat) : Int)
        exact_mod_cast hreset
    · have hclt : c < opts.maxRequests := by
        have h1 : ¬ ((opts.maxRequests : ℚ) ≤ (c : ℚ)) := hcase
        have h2 := lt_of_not_le h1
        exact_mod_cast h2
      have hfloor : ⌊(opts.maxRequests : ℚ) - (c : ℚ) - 1⌋ =
          (opts.maxRequests : Int) - c - 1 := by
        rw [show (opts.maxRequests : ℚ) - (c : ℚ) - 1 =
            (((opts.maxRequests : Int) - c - 1 : Int) : ℚ) by push_cast; ring]
        exact Int.floor_intCast _
      refine ⟨?_, ?_, ?_⟩ <;> simp only [Prod.fst]
      · show (0 : Int) ≤ ⌊(opts.maxRequests : ℚ) - (c : ℚ) - 1⌋
        rw [hfloor]; omega
      · show ⌊(opts.maxRequests : ℚ) - (c : ℚ) - 1⌋ ≤ (opts.maxRequests : Int) - 1
        rw [hfloor]; omega
      · show ((now / 1000 : Nat) : Int) ≤ ((cws / 1000 + opts.timeWindowSeconds : Nat) : Int)
        exact_mod_cast hreset

/-- Fixed-window remaining-count bounds: for any decision, with at least one
allowed request configured, `0 ≤ remaining ≤ maxRequests - 1`. -/
lemma fwConsume_remaining_bounds (opts : RlOptions) (o : FWOptions)
    (stored : Option FWRecord) (now : Nat) (hmax : 1 ≤ opts.maxRequests) :
    0 ≤ (fwConsume opts o stored now).1.remainingRequests ∧
    (fwConsume opts o stored now).1.remainingRequests ≤ (opts.maxRequests : Int) - 1 := by
  obtain ⟨sw⟩ := o
  cases stored with
  | none =>
    cases sw <;> refine ⟨?_, ?_⟩ <;> simp [fwConsume] <;> omega
  | some r =>
    cases sw <;> simp only [fwConsume] <;> split_ifs <;>
      refine ⟨?_, ?_⟩ <;> simp <;> omega

/-- Fixed-window reset time: not in the past on the initializing branch and
on the strict-rollover branch; equal to `storedStart/1000 + window` on the
two branches that keep the stored window start. -/
lemma fwConsume_resetTime (opts : RlOptions) (o : FWOptions) (now : Nat)
    (hW : 1 ≤ opts.timeWindowSeconds) :
    (((now / 1000 : Nat) : Int) ≤ (fwConsume opts o none now).1.resetTime) ∧
    (∀ r : FWRecord, o.strictWindow = true →
      r.startTime < now / (opts.timeWindowSeconds * 1000) * (opts.timeWindowSeconds * 1000) →
      ((now / 1000 : Nat) : Int) ≤ (fwConsume opts o (some r) now).1.resetTime) ∧
    (∀ r : FWRecord,
      ¬ (o.strictWindow = true ∧
         r.startTime < now / (opts.timeWindowSeconds * 1000) * (opts.timeWindowSeconds * 1000)) →
      (fwConsume opts o (some r) now).1.resetTime =
        ((r.startTime / 1000 + opts.timeWindowSeconds : Nat) : Int)) := by
  have hstrict := floorWindow_resetSec now opts.timeWindowSeconds opts.timeWindowSeconds hW (le_refl _)
  obtain ⟨sw⟩ := o
  refine ⟨?_, ?_, ?_⟩
  · cases sw
    · simp only [fwConsume, Bool.false_eq_true, if_false]
      exact_mod_cast Nat.le_add_right _ _
    · simp only [fwConsume, if_true]
      exact_mod_cast hstrict
  · intro r hs hlt
    simp only at hs
    subst hs
    simp only [fwConsume, if_true]
    rw [if_pos (⟨by simp, hlt⟩ : _ ∧ _)]
    show ((now / 1000 : Nat) : Int) ≤
      ((now / (opts.timeWindowSeconds * 1000) * (opts.timeWindowSeconds * 1000) / 1000 +
        opts.timeWindowSeconds : Nat) : Int)
    exact_mod_cast hstrict
  · intro r hnot
    cases sw
    · simp only [fwConsume, Bool.false_eq_true, if_false]
      rw [if_neg (by simp)]
      split_ifs <;> simp
    · simp only at hnot
      simp only [fwConsume, if_true]
      rw [if_neg (by intro hand; simp at hnot; exact absurd hand.2 (not_lt.mpr hnot))]
      split_ifs <;> simp

/-- The non-strict fixed-window branch never rolls an existing record over:
the stored record is either left unwritten (rejection) or its counter is
incremented with the original window start; success is exactly
`counter < maxRequests`. -/
lemma fwConsume_lax_no_reset (opts : RlOptions) (o : FWOptions) (r : FWRecord)
    (now : Nat) (hs : o.strictWindow = false) :
    (fwConsume opts o (some r) now).2 =
      (if opts.maxRequests ≤ r.counter then none
       else some { counter := r.counter + 1, startTime := r.startTime }) ∧
    (fwConsume opts o (some r) now).1.success = decide (r.counter < opts.maxRequests) := by
  obtain ⟨sw⟩ := o
  simp only at hs
  subst hs
  simp only [fwConsume, Bool.false_eq_true, if_false]
  rw [if_neg (by simp)]
  by_cases hc : opts.maxRequests ≤ r.counter
  · rw [if_pos hc, if_pos hc]
    refine ⟨rfl, ?_⟩
    simp
    omega
  · rw [if_neg hc, if_neg hc]
    refine ⟨rfl, ?_⟩
    simp
    omega

/-- The strict fixed-window rollover branch: a stored record older than the
aligned window start is reset to `{counter = 1, startTime = windowStart}` and
the request is allowed. -/
lemma fwConsume_strict_reset (opts : RlOptions) (o : FWOptions) (r : FWRecord)
    (now : Nat) (hs : o.strictWindow = true)
    (hlt : r.startTime <
      now / (opts.timeWindowSeconds * 1000) * (opts.timeWindowSeconds * 1000)) :
    fwConsume opts o (some r) now =
      ({ success := true, remainingRequests := (opts.maxRequests : Int) - 1,
         resetTime := ((now / (opts.timeWindowSeconds * 1000) *
             (opts.timeWindowSeconds * 1000) / 1000 +
           opts.timeWindowSeconds : Nat) : Int) },
       some { counter := 1,
              startTime := now / (opts.timeWindowSeconds * 1000) *
                (opts.timeWindowSeconds * 1000) }) := by
  obtain ⟨sw⟩ := o
  simp only at hs
  subst hs
  simp only [fwConsume, if_true]
  rw [if_pos (⟨by simp, hlt⟩ : _ ∧ _)]

/-! ## Request context, fire and the dispatch chain (src/server/ammo.js,
src/server/handler.js, src/server/ammo/body-parser.js, the enhance helper).

`Res` is Node's response object as the framework observes it.  Writing when
headers were already sent is refused by Node itself
(ERR_HTTP_HEADERS_SENT), which the model keeps: that refusal is the only
thing standing between a second `fire` and a second response. -/

structure Res where
  headersSent : Bool
  writableEnded : Bool
  finished : Bool
  statusWritten : Option Nat
  bodyWritten : Option String
  deriving Repr, DecidableEq

def freshRes : Res :=
  { headersSent := false, writableEnded := false, finished := false
    statusWritten := none, bodyWritten := none }

inductive JsWriteErr where
  | headersAlreadySent
  deriving Repr, DecidableEq

/-- `res.writeHead(status, headers)`: raises when headers were already sent,
otherwise latches `headersSent` and records the status. -/
def writeHead (r : Res) (status : Nat) : Except JsWriteErr Res :=
  if r.headersSent then Except.error JsWriteErr.headersAlreadySent
  else Except.ok { r with headersSent := true, statusWritten := some status }

/-- The request context.  The Ammo class has no `sent` field; the only
response-related state it keeps is `dispatchedData`. -/
structure Ammo where
  res : Res
  dispatchedData : Option String
  deriving Repr, DecidableEq

/-- `Ammo.fire` after `statusAndData` has resolved the argument pattern to a
status code and a data string: assign `dispatchedData`, then unconditionally
`writeHead`, `write`, `end`.  No latch is consulted before the header write;
a raised write error leaves the already-mutated state behind (second
component). -/
def fire (a : Ammo) (status : Nat) (data : String) : Ammo × Option JsWriteErr :=
  let a1 : Ammo := { a with dispatchedData := some data }
  match writeHead a1.res status with
  | Except.error e => (a1, some e)
  | Except.ok r1 =>
    ({ a1 with
        res := { r1 with
                  bodyWritten := some data
                  writableEnded := true
                  finished := true } },
     none)

/-- The `fire` behaviour the specification describes: atomically check the
`RC.sent` latch and skip the write silently when it is already set.  Kept
separate from `fire` (the source's behaviour) so the two can be compared. -/
def fireSpec (a : Ammo) (status : Nat) (data : String) : Ammo × Option JsWriteErr :=
  if a.res.headersSent then (a, none)
  else fire a status data

/-! Modelled from the spec: utils/status-codes.js is imported by ammo.js but
is not among the sources (only its importers are).  Per spec section 4.3 it
maps known status codes to canonical IANA reason phrases and back
(case-insensitively), and `isStatusCode` accepts integers in [100, 599]. -/

/-- Modelled from the spec: the known status-code/reason-phrase table of
utils/status-codes.js. -/
def statusTable : List (Nat × String) :=
  [(200, "OK"), (204, "No Content"), (400, "Bad Request"),
   (401, "Unauthorized"), (403, "Forbidden"), (404, "Not Found"),
   (405, "Method Not Allowed"), (408, "Request Timeout"),
   (413, "Payload Too Large"), (415, "Unsupported Media Type"),
   (429, "Too Many Requests"), (500, "Internal Server Error"),
   (503, "Service Unavailable")]

/-- Modelled from the spec: `isStatusCode` = integer in [100, 599]. -/
def isStatusCode (n : Nat) : Bool := decide (100 ≤ n ∧ n ≤ 599)

/-- Modelled from the spec: status code to reason phrase. -/
def toStatusMessage (n : Nat) : Option String :=
  (statusTable.find? (fun p => p.1 == n)).map (fun p => p.2)

/-- JS `toLowerCase()` on the ASCII range, written so that it evaluates by
kernel reduction. -/
def charLower (c : Char) : Char :=
  if 'A' ≤ c ∧ c ≤ 'Z' then Char.ofNat (c.toNat + 32) else c

def jsToLower (s : String) : String := String.mk (s.data.map charLower)

/-- Modelled from the spec: reason phrase (case-insensitive) to status code. -/
def toStatusCode (s : String) : Option Nat :=
  (statusTable.find? (fun p => jsToLower p.2 == jsToLower s)).map (fun p => p.1)

/-- JS `parseInt(s)`: skip leading whitespace, optional sign, then leading
decimal digits; `NaN` (here `none`) when no digit follows. -/
def leadingDigits (cs : List Char) : Option Nat :=
  let ds := cs.takeWhile Char.isDigit
  if ds.isEmpty then none
  else some (ds.foldl (fun acc c => acc * 10 + (c.toNat - 48)) 0)

def jsParseInt (s : String) : Option Int :=
  match s.data.dropWhile Char.isWhitespace with
  | '-' :: rest => (leadingDigits rest).map (fun n => -(n : Int))
  | '+' :: rest => (leadingDigits rest).map (fun n => (n : Int))
  | cs => (leadingDigits cs).map (fun n => (n : Int))

/-- The error values `Ammo.throw` can receive from the error handler.
`bodyParserErr` is a `BodyParserError`: it extends `Error`, not `TejError`,
so `throw` lands in the generic-`Error` branch and its `statusCode` field is
never read. -/
inductive ErrVal where
  | tejErr (code : Nat) (msg : String)
  | bodyParserErr (code : Nat) (msg : String)
  | jsError (msg : String)
  | str (s : String)
  deriving Repr, DecidableEq

/-- `Ammo.throw(err)` as invoked by the dispatcher's error handler (one
non-number argument, so Case 2 `isStatusCode(args[0])` never fires):
TejError → its code and message; any other Error → numeric message, then
reason-phrase message, then 500 with the message; other values → reason
phrase or 500 with their string form.  The write-refusal error of a
late `fire` (if any) propagates to the caller of `throw`; the state it
leaves is what `throw` leaves. -/
def ammoThrow (a : Ammo) (e : ErrVal) : Ammo :=
  match e with
  | ErrVal.tejErr code msg => (fire a code msg).1
  | ErrVal.bodyParserErr _ msg =>
    (match jsParseInt msg with
     | some n =>
       (fire a n.toNat (((toStatusMessage n.toNat).getD
         ((toStatusMessage 500).getD "")))).1
     | none =>
       match toStatusCode msg with
       | some code => (fire a code msg).1
       | none => (fire a 500 msg).1)
  | ErrVal.jsError msg =>
    (match jsParseInt msg with
     | some n =>
       (fire a n.toNat (((toStatusMessage n.toNat).getD
         ((toStatusMessage 500).getD "")))).1
     | none =>
       match toStatusCode msg with
       | some code => (fire a code msg).1
       | none => (fire a 500 msg).1)
  | ErrVal.str s =>
    match toStatusCode s with
    | some code => (fire a code ((toStatusMessage code).getD "")).1
    | none => (fire a 500 s).1

/-- The entry guard of `executeChain`'s `next()`:
`res.headersSent || res.writableEnded || res.finished`. -/
def chainGuard (r : Res) : Bool := r.headersSent || r.writableEnded || r.finished

/-- A middleware frame: it receives the request context and the continuation
running the remaining chain, and returns the state it leaves together with
the error it threw, if any.  (Middlewares are modelled as running to
completion, optionally invoking the continuation; the continuation handles
its own errors, as `next()` catches at every level.) -/
def MwStep := Ammo → (Ammo → Ammo) → Ammo × Option ErrVal

/-- `executeChain`'s `next()`: return immediately when a response is already
under way; otherwise run the next middleware with the continuation for the
rest of the chain; a thrown error is routed to the error handler only when
the guard is still clear afterwards. -/
def nextRun : List MwStep → Ammo → Ammo
  | [], a => a
  | mw :: rest, a =>
    if chainGuard a.res then a
    else
      match mw a (fun s => nextRun rest s) with
      | (a1, some e) => if chainGuard a1.res then a1 else ammoThrow a1 e
      | (a1, none) => a1

/-- The default entry page served for `/` when nothing matched (opaque
content). -/
def tejasEntryHtml : String := "<!DOCTYPE html><html>tejas</html>"

/-- One incoming request as the dispatcher sees it: the raw URL, the
`Content-Type` header (`none` when absent) and the outcome of the
recognised sub-parsers on the request's body stream (environment-provided:
body reading is outside the model). -/
structure Req where
  url : JsStr
  contentTypeValue : Option String
  bodyOutcome : Except (Nat × String) Unit

/-- `parseDataBasedOnContentType` (src/server/ammo/body-parser.js) at the
level of its content-type dispatch: no `Content-Type` header → 400
"Content-Type header is missing"; JSON / url-encoded / multipart hand off to
the stream sub-parsers; anything else → 415. -/
def parseDataBasedOnContentType (req : Req) : Except (Nat × String) Unit :=
  match req.contentTypeValue with
  | none => Except.error (400, "Content-Type header is missing")
  | some ct =>
    let c := jsToLower ct
    if c = "application/json" then req.bodyOutcome
    else if c = "application/x-www-form-urlencoded" then req.bodyOutcome
    else if (jstr "multipart/form-data").isPrefixOf c.data then req.bodyOutcome
    else Except.error (415, "Unsupported content type: " ++ c)

/-- The dispatcher (`handler` in src/server/handler.js): strip the query
string, match; on a match, `enhance` runs first — and `generatePayload`
invokes the body parser unconditionally — so a body-parser error reaches the
`catch` and goes to `errorHandler → ammo.throw` before any chain step runs;
only a successful enhance executes the chain.  On a miss, `/` gets the
default entry page and anything else a 404 TejError. -/
def handlerRun (targets : List JsStr) (req : Req) (chain : List MwStep) : Ammo :=
  let url := req.url.takeWhile (fun c => c ≠ '?')
  let a0 : Ammo := { res := freshRes, dispatchedData := none }
  match aim targets url with
  | some _ =>
    match parseDataBasedOnContentType req with
    | Except.error (code, msg) => ammoThrow a0 (ErrVal.bodyParserErr code msg)
    | Except.ok _ => nextRun chain a0
  | none =>
    if req.url = jstr "/" then (fire a0 200 tejasEntryHtml).1
    else ammoThrow a0 (ErrVal.tejErr 404 ("URL not found: " ++ String.mk url))

lemma fire_unsent (a : Ammo) (status : Nat) (data : String)
    (h : a.res.headersSent = false) :
    (fire a status data).2 = none ∧
    (fire a status data).1.res.headersSent = true ∧
    (fire a status data).1.res.statusWritten = some status ∧
    (fire a status data).1.res.bodyWritten = some data := by
  simp [fire, writeHead, h]

lemma fire_sent (a : Ammo) (status : Nat) (data : String)
    (h : a.res.headersSent = true) :
    (fire a status data).2 = some JsWriteErr.headersAlreadySent ∧
    (fire a status data).1.res = a.res ∧
    (fire a status data).1.dispatchedData = some data := by
  simp [fire, writeHead, h]

lemma nextRun_guard (chain : List MwStep) (a : Ammo)
    (h : chainGuard a.res = true) : nextRun chain a = a := by
  cases chain with
  | nil => rfl
  | cons mw rest => simp [nextRun, h]

lemma handlerRun_noContentType (targets : List JsStr) (req : Req)
    (chain : List MwStep)
    (hmatch : (aim targets (req.url.takeWhile (fun c => c ≠ '?'))).isSome = true)
    (hct : req.contentTypeValue = none) :
    handlerRun targets req chain =
      ammoThrow { res := freshRes, dispatchedData := none }
        (ErrVal.bodyParserErr 400 "Content-Type header is missing") ∧
    (handlerRun targets req chain).res.statusWritten = some 500 ∧
    (handlerRun targets req chain).res.bodyWritten =
      some "Content-Type header is missing" := by
  obtain ⟨m, hm⟩ := Option.isSome_iff_exists.mp hmatch
  have h1 : handlerRun targets req chain =
      ammoThrow { res := freshRes, dispatchedData := none }
        (ErrVal.bodyParserErr 400 "Content-Type header is missing") := by
    simp only [handlerRun, hm, parseDataBasedOnContentType, hct]
  refine ⟨h1, ?_, ?_⟩ <;> rw [h1] <;> decide

/-! ## Claim theorems -/

/-- C8 counterexample: `standardizePath` is not idempotent on the path "//":
one application yields "/", a second application yields "". -/
theorem standardizePath_not_idempotent_counterexample :
    standardizePath (jstr "//") = jstr "/" ∧
    standardizePath (standardizePath (jstr "//")) ≠ standardizePath (jstr "//") := by
  decide

/-- C8 (amended): path normalization is idempotent for every path that does
not end with two slashes; a path ending in "//" loses one slash per
application, so idempotence fails exactly there. -/
theorem standardizePath_idem_amended (p : JsStr) (h : ¬ (['/', '/'] <:+ p)) :
    standardizePath (standardizePath p) = standardizePath p :=
  standardizePath_idem h

/-- Witness for C8's amended theorem at the concrete path "/a/". -/
theorem standardizePath_idem_amended_witness :
    ¬ (['/', '/'] <:+ jstr "/a/") ∧
    standardizePath (standardizePath (jstr "/a/")) = standardizePath (jstr "/a/") :=
  ⟨by decide, standardizePath_idem_amended (jstr "/a/") (by decide)⟩

/-- C3: exact-path match always wins.  If some registered path equals the
standardized request path, `aim` returns an exact registration (the first
such) with empty params; and whenever `aim` returns an endpoint other than
the standardized path (i.e. a genuinely parameterized result), no registered
path equals the standardized request path, regardless of registration
order. -/
theorem aim_exact_match_priority (ts : List JsStr) (ep : JsStr) :
    ((∃ t ∈ ts, t = standardizePath ep) →
      ∃ t ∈ ts, t = standardizePath ep ∧ aim ts ep = some (t, [])) ∧
    (∀ t ps, aim ts ep = some (t, ps) → t ≠ standardizePath ep →
      ∀ t' ∈ ts, t' ≠ standardizePath ep) :=
  ⟨aim_exact_exists, fun _ _ h hne => aim_param_no_exact h hne⟩

/-- Witness for C3 at the registry ["/users/me", "/users/:id"] and the
request path "/users/me". -/
theorem aim_exact_match_priority_witness :
    ∃ t ∈ [jstr "/users/me", jstr "/users/:id"],
      t = standardizePath (jstr "/users/me") ∧
      aim [jstr "/users/me", jstr "/users/:id"] (jstr "/users/me") = some (t, []) :=
  (aim_exact_match_priority [jstr "/users/me", jstr "/users/:id"]
    (jstr "/users/me")).1 ⟨jstr "/users/me", by decide, by decide⟩

/-- C7 counterexample: the computed entry size for key "k" and empty value is
67 bytes (1 + 0 + 8 + 8 + 50), not the 25 bytes (1 + 0 + 24) the
specification's formula gives. -/
theorem entrySize_overhead_counterexample :
    estimateSize "k" "" = 67 ∧ specEntrySize "k" "" = 25 ∧
    estimateSize "k" "" ≠ specEntrySize "k" "" := by
  decide

/-- C7 (amended): the entry size is the UTF-8 byte length of the key plus the
byte length of the value plus a fixed overhead of 66 bytes (8 for the
expiry, 8 for the timestamp, 50 for the entity structure). -/
theorem entrySize_overhead_amended :
    ∀ (k v : String) (expiry : Option Nat) (now : Nat),
      (mkEntity k v expiry now).size = k.utf8ByteSize + v.utf8ByteSize + 66 := by
  intro k v expiry now
  simp [mkEntity, estimateSize]

/-- C9: `LRUCache.set` on a key already present, and `LRUCache.get` of an
expired entry, never complete for any amount of fuel: both hold the
operation lock while awaiting `delete`, which spins forever on that same
lock. -/
theorem lruCache_set_get_deadlock (fuel : Nat) (c : LRU) (k v : String)
    (expiry : Option Nat) (now : Nat) (e : CacheEntity)
    (hl : c.lock = false) :
    (c.entries.any (fun e => e.key == k) = true →
      lruSet fuel c k v expiry now = none) ∧
    (c.entries.find? (fun e => e.key == k) = some e → isExpired e now = true →
      lruGet fuel c k now = none) :=
  ⟨fun hk => lruSet_deadlock fuel c k v expiry now hl hk,
   fun hf he => lruGet_deadlock fuel c k now e hl hf he⟩

/-- Witness for C9: a one-entry unlocked cache; overwriting the entry and
reading it past its expiry both fail to terminate. -/
theorem lruCache_set_get_deadlock_witness :
    lruSet 7 { maxSize := 100, currentSize := 67
               entries := [{ key := "k", value := "v", expiry := some 5
                             timestamp := 0, size := 67 }]
               lock := false } "k" "w" none 10 = none ∧
    lruGet 7 { maxSize := 100, currentSize := 67
               entries := [{ key := "k", value := "v", expiry := some 5
                             timestamp := 0, size := 67 }]
               lock := false } "k" 10 = none :=
  ⟨(lruCache_set_get_deadlock 7 _ "k" "w" none 10
      { key := "k", value := "v", expiry := some 5, timestamp := 0, size := 67 }
      rfl).1 (by decide),
   (lruCache_set_get_deadlock 7 _ "k" "w" none 10
      { key := "k", value := "v", expiry := some 5, timestamp := 0, size := 67 }
      rfl).2 (by decide) (by decide)⟩

/-- C2: after two completing `CacheStore.set` calls on a store configured
with the documented size string "100B", the sum of stored entry sizes is 80
bytes while `globalSize` is 160 and the configured maximum is 100 bytes —
the invariant `sum(sizeBytes) == globalSize ≤ globalMaxBytes` is violated:
the per-namespace eviction inside `LRUCache.set` is invisible to
`globalSize`, and the store's own global check compares a number against the
size string (false for every NaN conversion). -/
theorem cacheStore_size_accounting_violated :
    c2run.map sumEntrySizes = some 80 ∧
    c2run.map CacheStoreSt.globalSize = some 160 ∧
    c2run.map (fun st => st.maxSize.bytes) = some 100 ∧
    (80 : Int) ≠ 160 ∧ (100 : Int) < 160 := by
  decide

/-- C4: `TokenBucketRateLimiter.consume` passes the string
'tokenBucketConfig' to `getAlgorithmOptions`, whose switch only recognises
'token-bucket'; the lookup is null for every limiter and every consume call
throws a TypeError at the first property access instead of initializing the
record and allowing the request. -/
theorem tokenBucket_consume_always_throws :
    ∀ (l : Limiter) (stored : Option TBRecord) (now : Nat),
      getAlgorithmOptions l "tokenBucketConfig" = none ∧
      tbConsume l stored now = TbOutcome.thrown :=
  fun l stored now =>
    ⟨getAlgorithmOptions_tokenBucketConfig l, tbConsume_thrown l stored now⟩

/-- C5 counterexample: non-strict mode, window 60 s, limit 3; the stored
record `{counter = 3, startTime = 0}` is older than `now - windowMs`
(0 + 60000 < 120000), yet consume rejects the request and stores nothing —
no rollover reset happens in the non-strict branch. -/
theorem fixedWindow_lax_rollover_counterexample :
    fwConsume { maxRequests := 3, timeWindowSeconds := 60 }
        { strictWindow := false }
        (some { counter := 3, startTime := 0 }) 120000 =
      ({ success := false, remainingRequests := 0, resetTime := 60 }, none) ∧
    0 + 60 * 1000 < 120000 := by
  decide

/-- C5 (amended): only the strict branch performs the rollover reset — a
stored record older than the clock-aligned window start is reset to
`{counter = 1, startTime = windowStart}` and allowed; in non-strict mode an
existing record is never reset: the request is allowed with an incremented
counter exactly when `counter < maxRequests`, and rollover is left entirely
to the storage TTL. -/
theorem fixedWindow_reset_only_in_strict_mode (opts : RlOptions) (o : FWOptions)
    (r : FWRecord) (now : Nat) :
    (o.strictWindow = true →
      r.startTime <
        now / (opts.timeWindowSeconds * 1000) * (opts.timeWindowSeconds * 1000) →
      fwConsume opts o (some r) now =
        ({ success := true, remainingRequests := (opts.maxRequests : Int) - 1,
           resetTime := ((now / (opts.timeWindowSeconds * 1000) *
               (opts.timeWindowSeconds * 1000) / 1000 +
             opts.timeWindowSeconds : Nat) : Int) },
         some { counter := 1,
                startTime := now / (opts.timeWindowSeconds * 1000) *
                  (opts.timeWindowSeconds * 1000) })) ∧
    (o.strictWindow = false →
      (fwConsume opts o (some r) now).2 =
        (if opts.maxRequests ≤ r.counter then none
         else some { counter := r.counter + 1, startTime := r.startTime }) ∧
      (fwConsume opts o (some r) now).1.success =
        decide (r.counter < opts.maxRequests)) :=
  ⟨fun hs hlt => fwConsume_strict_reset opts o r now hs hlt,
   fun hs => fwConsume_lax_no_reset opts o r now hs⟩

/-- Witness for C5's amended theorem: a strict rollover at t = 120 s resets
and allows; a full non-strict record is rejected without a reset. -/
theorem fixedWindow_reset_only_in_strict_mode_witness :
    (fwConsume { maxRequests := 3, timeWindowSeconds := 60 }
        { strictWindow := true } (some { counter := 2, startTime := 0 }) 120000 =
      ({ success := true, remainingRequests := 2, resetTime := 180 },
       some { counter := 1, startTime := 120000 })) ∧
    ((fwConsume { maxRequests := 3, timeWindowSeconds := 60 }
        { strictWindow := false } (some { counter := 3, startTime := 5000 })
        120000).2 = none) :=
  ⟨(fixedWindow_reset_only_in_strict_mode { maxRequests := 3, timeWindowSeconds := 60 }
      { strictWindow := true } { counter := 2, startTime := 0 } 120000).1
      rfl (by decide),
   ((fixedWindow_reset_only_in_strict_mode { maxRequests := 3, timeWindowSeconds := 60 }
      { strictWindow := false } { counter := 3, startTime := 5000 } 120000).2
      rfl).1⟩

/-- C6 counterexample: with weights `{current: 1, previous: 0.5}` and limit
2, an allowed sliding-window decision returns `remaining = -1 < 0`; and a
non-strict fixed-window decision on a stale record (stored at t = 0, queried
at t = 110 s, window 60 s) is allowed with `resetTime = 60`, which is before
the current epoch second 110. -/
theorem rateLimit_decision_bounds_counterexample :
    (swConsume { maxRequests := 2, timeWindowSeconds := 60 }
        { granularity := 1, weights := { current := 1, previous := 1/2 } }
        (some { counter := 1, timestamps := [1500, 61200], windowStart := 0 })
        61500).1.remainingRequests = -1 ∧
    ((-1 : Int) < 0) ∧
    (fwConsume { maxRequests := 3, timeWindowSeconds := 60 }
        { strictWindow := false } (some { counter := 1, startTime := 0 })
        110000).1 =
      { success := true, remainingRequests := 1, resetTime := 60 } ∧
    (60 : Int) < 110 := by
  refine ⟨?_, by norm_num, by decide, by decide⟩
  norm_num [swConsume]

/-- C6 (amended): with the default sliding-window weights `{1, 0}` and
granularity at most the window, sliding-window decisions satisfy
`0 ≤ remaining ≤ maxRequests - 1` and `resetTime ≥ nowSec`; fixed-window
decisions satisfy `0 ≤ remaining ≤ maxRequests - 1` always, and
`resetTime ≥ nowSec` on the initializing and strict-rollover branches, while
on the remaining branches `resetTime = storedStart/1000 + window`, which may
precede `nowSec` for a stale record; the token-bucket consume never produces
a decision at all (it throws, C4). -/
theorem rateLimit_decision_bounds_amended (opts : RlOptions) (osw : SWOptions)
    (ofw : FWOptions) (l : Limiter) (storedSw : Option SWRecord)
    (storedFw : Option FWRecord) (storedTb : Option TBRecord) (now : Nat)
    (hmax : 1 ≤ opts.maxRequests) (hW : 1 ≤ opts.timeWindowSeconds)
    (hg : 1 ≤ osw.granularity) (hgW : osw.granularity ≤ opts.timeWindowSeconds)
    (hw : osw.weights = { current := 1, previous := 0 }) :
    (0 ≤ (swConsume opts osw storedSw now).1.remainingRequests ∧
     (swConsume opts osw storedSw now).1.remainingRequests ≤
       (opts.maxRequests : Int) - 1 ∧
     ((now / 1000 : Nat) : Int) ≤ (swConsume opts osw storedSw now).1.resetTime) ∧
    (0 ≤ (fwConsume opts ofw storedFw now).1.remainingRequests ∧
     (fwConsume opts ofw storedFw now).1.remainingRequests ≤
       (opts.maxRequests : Int) - 1) ∧
    (((now / 1000 : Nat) : Int) ≤ (fwConsume opts ofw none now).1.resetTime) ∧
    (∀ r : FWRecord, ofw.strictWindow = true →
      r.startTime <
        now / (opts.timeWindowSeconds * 1000) * (opts.timeWindowSeconds * 1000) →
      ((now / 1000 : Nat) : Int) ≤ (fwConsume opts ofw (some r) now).1.resetTime) ∧
    (∀ r : FWRecord,
      ¬ (ofw.strictWindow = true ∧
         r.startTime <
           now / (opts.timeWindowSeconds * 1000) * (opts.timeWindowSeconds * 1000)) →
      (fwConsume opts ofw (some r) now).1.resetTime =
        ((r.startTime / 1000 + opts.timeWindowSeconds : Nat) : Int)) ∧
    tbConsume l storedTb now = TbOutcome.thrown :=
  ⟨swConsume_default_bounds opts osw storedSw now hmax hg hgW hw,
   fwConsume_remaining_bounds opts ofw storedFw now hmax,
   (fwConsume_resetTime opts ofw now hW).1,
   (fwConsume_resetTime opts ofw now hW).2.1,
   (fwConsume_resetTime opts ofw now hW).2.2,
   tbConsume_thrown l storedTb now⟩

/-- Witness for C6's amended theorem at limit 3, window 60 s, granularity
1 s, default weights, first contact at t = 5 s. -/
theorem rateLimit_decision_bounds_amended_witness :
    ((1 : Nat) ≤ 3 ∧ (1 : Nat) ≤ 60) ∧
    0 ≤ (swConsume { maxRequests := 3, timeWindowSeconds := 60 }
        { granularity := 1, weights := { current := 1, previous := 0 } }
        none 5000).1.remainingRequests ∧
    tbConsume { options := { maxRequests := 60, timeWindowSeconds := 60 }
                tokenBucketOptions := none, slidingWindowOptions := none
                fixedWindowOptions := none } none 5000 = TbOutcome.thrown :=
  ⟨⟨by decide, by decide⟩,
   (rateLimit_decision_bounds_amended { maxRequests := 3, timeWindowSeconds := 60 }
      { granularity := 1, weights := { current := 1, previous := 0 } }
      { strictWindow := false }
      { options := { maxRequests := 60, timeWindowSeconds := 60 }
        tokenBucketOptions := none, slidingWindowOptions := none
        fixedWindowOptions := none }
      none none none 5000 (by decide) (by decide) (by decide) (by decide)
      rfl).1.1,
   (rateLimit_decision_bounds_amended { maxRequests := 3, timeWindowSeconds := 60 }
      { granularity := 1, weights := { current := 1, previous := 0 } }
      { strictWindow := false }
      { options := { maxRequests := 60, timeWindowSeconds := 60 }
        tokenBucketOptions := none, slidingWindowOptions := none
        fixedWindowOptions := none }
      none none none 5000 (by decide) (by decide) (by decide) (by decide)
      rfl).2.2.2.2.2⟩

/-- C1 counterexample: `fire` consults no sent latch.  After a first fire, a
second fire on the same request attempts the header write anyway — it
mutates `dispatchedData` and is stopped only by the response object's
headers-already-sent refusal, where the specified latch-checking `fire`
(`fireSpec`) would have returned silently without touching anything. -/
theorem fire_ignores_sent_latch_counterexample :
    (fire (fire { res := freshRes, dispatchedData := none } 200 "ok").1
        500 "late").2 = some JsWriteErr.headersAlreadySent ∧
    fireSpec (fire { res := freshRes, dispatchedData := none } 200 "ok").1
        500 "late" =
      ((fire { res := freshRes, dispatchedData := none } 200 "ok").1, none) ∧
    (fire (fire { res := freshRes, dispatchedData := none } 200 "ok").1
        500 "late").1 ≠
      (fire { res := freshRes, dispatchedData := none } 200 "ok").1 := by
  decide

/-- C1 (amended): there is no `RC.sent` latch; `fire` writes unconditionally.
A first fire writes status and body and latches `res.headersSent`; a second
fire raises the transport's headers-already-sent error and leaves the
response unchanged; and `executeChain`'s `next()` returns without invoking
any further middleware once `res.headersSent`, `res.writableEnded` or
`res.finished` is set.  Together, at most one response is written per
request — enforced by the response object and the chain guard, not by a
latch inside `fire`. -/
theorem sendOnce_via_transport_and_chain_guard :
    (∀ (a : Ammo) (status : Nat) (data : String), a.res.headersSent = false →
      (fire a status data).2 = none ∧
      (fire a status data).1.res.headersSent = true ∧
      (fire a status data).1.res.statusWritten = some status) ∧
    (∀ (a : Ammo) (status : Nat) (data : String), a.res.headersSent = true →
      (fire a status data).2 = some JsWriteErr.headersAlreadySent ∧
      (fire a status data).1.res = a.res) ∧
    (∀ (chain : List MwStep) (a : Ammo), chainGuard a.res = true →
      nextRun chain a = a) :=
  ⟨fun a status data h =>
    ⟨(fire_unsent a status data h).1, (fire_unsent a status data h).2.1,
     (fire_unsent a status data h).2.2.1⟩,
   fun a status data h =>
    ⟨(fire_sent a status data h).1, (fire_sent a status data h).2.1⟩,
   nextRun_guard⟩

/-- Witness for C1's amended theorem: a fresh response accepts one write; an
already-sent response refuses the next; a chain entered with headers sent
runs nothing. -/
theorem sendOnce_via_transport_and_chain_guard_witness :
    ((fire { res := freshRes, dispatchedData := none } 200 "ok").2 = none) ∧
    ((fire { res := { freshRes with headersSent := true }, dispatchedData := none }
        500 "late").2 = some JsWriteErr.headersAlreadySent) ∧
    (nextRun [] { res := { freshRes with headersSent := true },
                  dispatchedData := none } =
      { res := { freshRes with headersSent := true }, dispatchedData := none }) :=
  ⟨(sendOnce_via_transport_and_chain_guard.1
      { res := freshRes, dispatchedData := none } 200 "ok" rfl).1,
   (sendOnce_via_transport_and_chain_guard.2.1
      { res := { freshRes with headersSent := true }, dispatchedData := none }
      500 "late" rfl).1,
   sendOnce_via_transport_and_chain_guard.2.2 []
      { res := { freshRes with headersSent := true }, dispatchedData := none }
      rfl⟩

/-- C10 counterexample: a matched request with no Content-Type header is
answered with status 500, not the claimed 400 — `Ammo.throw` has no branch
for the BodyParserError's `statusCode` field. -/
theorem missing_content_type_status_counterexample :
    (handlerRun [jstr "/hello"]
        { url := jstr "/hello", contentTypeValue := none
          bodyOutcome := Except.ok () } []).res.statusWritten = some 500 ∧
    some (500 : Nat) ≠ some 400 := by
  decide

/-- C10 (amended): for every matched request with no Content-Type header —
a plain GET included — the body parser is invoked during enhancement and
fails with a BodyParserError carrying (400, 'Content-Type header is
missing'); the chain never runs (the result is the pure error send,
independent of the chain), but the dispatcher's error-sender does not
recognise the BodyParserError's status field and answers 500 with that
message. -/
theorem missing_content_type_amended (targets : List JsStr) (req : Req)
    (chain : List MwStep)
    (hmatch : (aim targets (req.url.takeWhile (fun c => c ≠ '?'))).isSome = true)
    (hct : req.contentTypeValue = none) :
    handlerRun targets req chain =
      ammoThrow { res := freshRes, dispatchedData := none }
        (ErrVal.bodyParserErr 400 "Content-Type header is missing") ∧
    (handlerRun targets req chain).res.statusWritten = some 500 ∧
    (handlerRun targets req chain).res.bodyWritten =
      some "Content-Type header is missing" :=
  handlerRun_noContentType targets req chain hmatch hct

/-- Witness for C10's amended theorem at a registered path "/hello" and a
header-less GET for it. -/
theorem missing_content_type_amended_witness :
    ((aim [jstr "/hello"] ((jstr "/hello").takeWhile (fun c => c ≠ '?'))).isSome
        = true) ∧
    (handlerRun [jstr "/hello"]
        { url := jstr "/hello", contentTypeValue := none
          bodyOutcome := Except.ok () } []).res.bodyWritten =
      some "Content-Type header is missing" :=
  ⟨by decide,
   (missing_content_type_amended [jstr "/hello"]
      { url := jstr "/hello", contentTypeValue := none
        bodyOutcome := Except.ok () } [] (by decide) rfl).2.2⟩
